import Mathlib

/-!
Verification of the Message Hub specification of the `live` ground-control
application, together with two UI-layer components (the server-settings
dialog form and the Electron main-window factory) that the claim list
touches.

The Message Hub implementation (`./flockwave/messages`) is not part of the
source tree here; only its caller (`messageHub` in the unnamed source file
that constructs `new MessageHub()` and registers the `CONN-INF` handler) is.
The hub is therefore modelled from the specification (sections 3, 4, 5, 7
of `spec.md`), as an explicit state machine with pure transition functions.
-/

namespace Flockwave

/-- A message body is opaque structured payload; the spec never inspects it
beyond routing, so it is modelled as a natural number token. -/
abbrev Body := Nat

/-- Modelled from the spec: `Message` is `{ type: string tag, id: optional
correlation identifier, body: opaque structured payload }`.  A request frame
carries `id = some i`; a notification carries `id = none`. -/
structure Message where
  type : String
  id : Option Nat
  body : Body
deriving DecidableEq, Repr

/-- Modelled from the spec: `PendingRequest` is `{ id, type, createdAt,
deadline, resolver, rejecter }`.  The resolver/rejecter completion handles
are modelled externally: the hub state keeps an append-only `results` log of
terminal transitions keyed by correlation id, so the two callback fields are
not part of the table entry itself. -/
structure PendingRequest where
  id : Nat
  type : String
  createdAt : Nat
  deadline : Nat
deriving DecidableEq, Repr

/-- Modelled from the spec: the request-level error taxonomy of section 7
(`HandlerError` is isolated at the router boundary and never surfaces to a
request caller, so it is not a member). -/
inductive HubError where
  | Disconnected
  | Timeout
  | ConnectionReplaced
  | Closed
  | ProtocolError
deriving DecidableEq, Repr

/-- A terminal transition of a pending request: resolved with a response
body, or rejected with one of the request-level errors. -/
inductive Outcome where
  | success (body : Body)
  | failure (e : HubError)
deriving DecidableEq, Repr

/-- Modelled from the spec: a registered handler.  Invocation is recorded in
the hub state (handler id paired with the delivered body); `fails` says
whether the handler raises when invoked, which the router must isolate. -/
structure Handler where
  hid : Nat
  fails : Bool
deriving DecidableEq, Repr

/-- Modelled from the spec: the Message Hub state.  `table` is the
Correlation Table, `handlers` the Notification Router registrations in
registration order, `adapter` the bound Transport Adapter (identified by a
numeric instance token), `results` the append-only log of terminal request
transitions, `sentFrames` the frames handed to an adapter (tagged with the
adapter that carried them), `invocations` the handler invocation log, and
`logs` the diagnostic log. -/
structure Hub where
  nextId : Nat
  table : List PendingRequest
  handlers : List (String × Handler)
  adapter : Option Nat
  closed : Bool
  results : List (Nat × Outcome)
  sentFrames : List (Nat × Message)
  invocations : List (Nat × Body)
  logs : List String
deriving DecidableEq, Repr

/-- The freshly constructed hub (`new MessageHub()`): nothing pending, no
handlers, no adapter bound. -/
def Hub.init : Hub :=
  { nextId := 0, table := [], handlers := [], adapter := none,
    closed := false, results := [], sentFrames := [], invocations := [],
    logs := [] }

/-- The ids currently pending in the Correlation Table. -/
def Hub.tableIds (h : Hub) : List Nat :=
  h.table.map (fun p => p.id)

/-- Modelled from the spec: Correlation Table `insert(entry)` fails if the
id is already present (defensive invariant check), otherwise appends. -/
def tableInsert (t : List PendingRequest) (e : PendingRequest) :
    Option (List PendingRequest) :=
  if t.any (fun p => p.id = e.id) then none else some (t ++ [e])

/-- Modelled from the spec: `request(type, body, timeout)` constructs a
message with a freshly generated id from the monotonically increasing
counter, inserts a `PendingRequest` with `deadline = now + timeout`, and
sends through the bound adapter.  Fails fast with `Disconnected` when no
adapter is bound, with `Closed` after `close()` (the hub is unusable), and
with `ProtocolError` if the defensive insert check fires (an invariant
violation that the generator design must prevent).  On success returns the
assigned correlation id. -/
def Hub.request (h : Hub) (type : String) (body : Body) (timeout : Nat)
    (now : Nat) : Hub × Except HubError Nat :=
  if h.closed then (h, Except.error HubError.Closed)
  else
    match h.adapter with
    | none => (h, Except.error HubError.Disconnected)
    | some a =>
      let entry : PendingRequest :=
        { id := h.nextId, type := type, createdAt := now,
          deadline := now + timeout }
      match tableInsert h.table entry with
      | none =>
        ({ h with logs := h.logs ++ ["insert rejected duplicate id"] },
         Except.error HubError.ProtocolError)
      | some t =>
        ({ h with
           table := t
           nextId := h.nextId + 1
           sentFrames := h.sentFrames ++
             [(a, { type := type, id := some h.nextId, body := body })] },
         Except.ok h.nextId)

/-- The handlers registered for a type tag, in registration order. -/
def handlersFor (hs : List (String × Handler)) (t : String) : List Handler :=
  (hs.filter (fun p => p.1 = t)).map Prod.snd

/-- Modelled from the spec: `dispatchInbound(frame)`.  A frame carrying an
id that matches a pending entry resolves that request and removes it from
the table; an id with no matching entry is dropped and logged; a frame with
no id fans out to every handler registered for its type in registration
order, per-handler failure being caught and logged independently, and an
unknown type is silently ignored (logged at low severity). -/
def Hub.dispatchInbound (h : Hub) (frame : Message) : Hub :=
  match frame.id with
  | some i =>
    if h.table.any (fun p => p.id = i) then
      { h with
        table := h.table.filter (fun p => p.id ≠ i)
        results := h.results ++ [(i, Outcome.success frame.body)] }
    else
      { h with logs := h.logs ++ ["dropped response with no pending id"] }
  | none =>
    if (handlersFor h.handlers frame.type).isEmpty then
      { h with logs := h.logs ++ ["ignored notification of unknown type " ++ frame.type] }
    else
      { h with
        invocations := h.invocations ++
          (handlersFor h.handlers frame.type).map (fun hd => (hd.hid, frame.body))
        logs := h.logs ++
          ((handlersFor h.handlers frame.type).filter (fun hd => hd.fails)).map
            (fun hd => "handler error isolated " ++ toString hd.hid) }

/-- Modelled from the spec: the timeout sweep rejects with `Timeout` and
removes every entry whose deadline has passed (`deadline ≤ now`, reading the
deadline as the expiry instant). -/
def Hub.sweepExpired (h : Hub) (now : Nat) : Hub :=
  { h with
    table := h.table.filter (fun p => ¬ p.deadline ≤ now)
    results := h.results ++
      (h.table.filter (fun p => p.deadline ≤ now)).map
        (fun p => (p.id, Outcome.failure HubError.Timeout)) }

/-- Modelled from the spec: `connect(adapter)` binds a Transport Adapter,
first failing every currently pending request with `ConnectionReplaced`,
then swapping.  Calling with the same adapter instance is a no-op, and a
closed hub is unusable. -/
def Hub.connect (h : Hub) (a : Nat) : Hub :=
  if h.closed then h
  else if h.adapter = some a then h
  else
    { h with
      adapter := some a
      table := []
      results := h.results ++
        h.table.map (fun p => (p.id, Outcome.failure HubError.ConnectionReplaced)) }

/-- Modelled from the spec: `close()` rejects all pending requests with
`Closed`, detaches the adapter, and clears handler state; terminal. -/
def Hub.close (h : Hub) : Hub :=
  { h with
    closed := true
    adapter := none
    handlers := []
    table := []
    results := h.results ++
      h.table.map (fun p => (p.id, Outcome.failure HubError.Closed)) }

/-- Modelled from the spec: `registerNotificationHandlers(mapping)` appends
to the router; multiple calls accumulate rather than overwrite. -/
def Hub.registerNotificationHandlers (h : Hub)
    (m : List (String × Handler)) : Hub :=
  if h.closed then h else { h with handlers := h.handlers ++ m }

/-- Modelled from the spec: `notify(type, body)` is a fire-and-forget send
with no id and no pending entry; it reports only the success or failure of
the send attempt. -/
def Hub.notify (h : Hub) (type : String) (body : Body) :
    Hub × Except HubError Unit :=
  if h.closed then (h, Except.error HubError.Closed)
  else
    match h.adapter with
    | none => (h, Except.error HubError.Disconnected)
    | some a =>
      ({ h with sentFrames := h.sentFrames ++
          [(a, { type := type, id := none, body := body })] },
       Except.ok ())

/-- One externally triggered hub operation, for the reachability relation. -/
inductive HubOp where
  | request (type : String) (body : Body) (timeout : Nat) (now : Nat)
  | dispatch (frame : Message)
  | sweep (now : Nat)
  | connect (a : Nat)
  | register (m : List (String × Handler))
  | notify (type : String) (body : Body)
  | close
deriving Repr

/-- Applying one operation to the hub state (discarding the synchronous
return value of `request`/`notify`). -/
def Hub.applyOp (h : Hub) : HubOp → Hub
  | HubOp.request t b tmo now => (h.request t b tmo now).1
  | HubOp.dispatch frame => h.dispatchInbound frame
  | HubOp.sweep now => h.sweepExpired now
  | HubOp.connect a => h.connect a
  | HubOp.register m => h.registerNotificationHandlers m
  | HubOp.notify t b => (h.notify t b).1
  | HubOp.close => h.close

/-- Running a whole sequence of operations. -/
def Hub.run (h : Hub) (ops : List HubOp) : Hub :=
  ops.foldl Hub.applyOp h

/-- A hub state is reachable when some operation sequence produces it from
the freshly constructed hub. -/
def Hub.Reachable (h : Hub) : Prop :=
  ∃ ops : List HubOp, Hub.init.run ops = h

/-- Issuing a batch of requests one after another. -/
def Hub.requestAll (h : Hub) (reqs : List (String × Body × Nat)) (now : Nat) :
    Hub :=
  reqs.foldl (fun hh r => (hh.request r.1 r.2.1 r.2.2 now).1) h

/-- Delivering a batch of response frames one after another. -/
def Hub.deliverResponses (h : Hub) (rs : List (Nat × Body)) : Hub :=
  rs.foldl
    (fun hh r => hh.dispatchInbound { type := "RESP", id := some r.1, body := r.2 })
    h

/-- A small concrete operation sequence: bind adapter 3, then issue one
PING request with timeout 1 at time 0 (pending id 0, deadline 1). -/
def sampleOps : List HubOp :=
  [HubOp.connect 3, HubOp.request "PING" 9 1 0]

/-- The concrete hub state reached by `sampleOps`. -/
def sampleHub : Hub :=
  Hub.init.run sampleOps

/-- The hub state invariant: pending ids are pairwise distinct and below the
generator counter, settled ids are below the counter, pairwise distinct, and
disjoint from the pending ids, a closed hub has drained its table and
cleared adapter and handlers, and a hub with no adapter has nothing
pending. -/
structure HubInv (h : Hub) : Prop where
  nodupTable : (h.table.map (fun p => p.id)).Nodup
  idsLt : ∀ p ∈ h.table, p.id < h.nextId
  resultsLt : ∀ r ∈ h.results, r.1 < h.nextId
  nodupResults : (h.results.map Prod.fst).Nodup
  disjoint : ∀ r ∈ h.results, ∀ p ∈ h.table, r.1 ≠ p.id
  closedDrained : h.closed = true → h.table = [] ∧ h.adapter = none ∧ h.handlers = []
  noAdapterDrained : h.adapter = none → h.table = []

end Flockwave

namespace ServerSettings

/-- Modelled from the spec: JavaScript number conversion as used on the port
field (`Number(data.port)`), restricted to the non-negative decimal numerals
a valid port can be; any other string does not convert to an integer. -/
def parseDecimal (s : String) : Option Nat :=
  if s.length ≠ 0 ∧ s.data.all Char.isDigit then
    some (s.data.foldl (fun n c => n * 10 + (c.toNat - 48)) 0)
  else none

/-- Modelled from the spec: the `required` validator of `utils/validation`
(the module is not in the source tree): a field must be non-empty. -/
def required (v : String) : Bool := v ≠ ""

/-- Modelled from the spec: the `integer` validator of `utils/validation`
(the module is not in the source tree): the value must convert to an
integer. -/
def integer (v : String) : Bool := (parseDecimal v).isSome

/-- Modelled from the spec: the `between lo hi` validator of
`utils/validation` (the module is not in the source tree): the numeric value
must lie in the inclusive range. -/
def between (lo hi : Nat) (v : String) : Bool :=
  match parseDecimal v with
  | some n => decide (lo ≤ n) && decide (n ≤ hi)
  | none => false

/-- The raw string values of the server settings form fields. -/
structure FormData where
  hostName : String
  port : String
deriving DecidableEq, Repr

/-- The payload dispatched on submit: the port already cast to a number. -/
structure SubmittedData where
  hostName : String
  port : Nat
deriving DecidableEq, Repr

/-- The action dispatched by the dialog container (the payload is optional:
`onClose` dispatches it without data). -/
inductive Action where
  | closeServerSettingsDialog (data : Option SubmittedData)
deriving DecidableEq, Repr

/-- The validation schema of `ServerSettingsForm`: `hostName: required` and
`port: [required, integer, between(1, 65535)]`, combined by
`createValidator` — every listed validator must accept its field. -/
def validateServerSettings (d : FormData) : Bool :=
  required d.hostName &&
    (required d.port && integer d.port && between 1 65535 d.port)

/-- The `onSubmit` handler of the dialog container: casts the port into a
number first, then dispatches `closeServerSettingsDialog` with the data. -/
def onSubmit (d : FormData) : Action :=
  Action.closeServerSettingsDialog
    (some { hostName := d.hostName, port := (parseDecimal d.port).getD 0 })

/-- A form submission attempt: redux-form runs the validator over the form
values and invokes `onSubmit` only when every field validates. -/
def submitServerSettings (d : FormData) : Option Action :=
  if validateServerSettings d then some (onSubmit d) else none

end ServerSettings

namespace MainWindow

/-- The module state of the Electron launcher: the `mainWindow` reference (a
window instance handle, or none), the `mainWindowState` window-state keeper
(modelled as a flag recording whether it has been created), a fresh handle
supply for newly constructed `BrowserWindow` instances, and a count of the
constructions performed (to state that no window is constructed when one
already exists). -/
structure WinState where
  mainWindow : Option Nat
  mainWindowState : Bool
  nextHandle : Nat
  createdCount : Nat
deriving DecidableEq, Repr

/-- The initial module state: both module-level references undefined. -/
def initState : WinState :=
  { mainWindow := none, mainWindowState := false, nextHandle := 0,
    createdCount := 0 }

/-- The `createMainWindow` function of the Electron launcher: if a main window exists
already it returns the existing instance without touching the state;
otherwise it creates the window-state keeper when missing, constructs a new
`BrowserWindow` (consuming a fresh handle and counting the construction),
stores it in `mainWindow` and returns it. -/
def createMainWindow (s : WinState) : WinState × Nat :=
  match s.mainWindow with
  | some w => (s, w)
  | none =>
    ({ s with
       mainWindow := some s.nextHandle
       mainWindowState := true
       nextHandle := s.nextHandle + 1
       createdCount := s.createdCount + 1 }, s.nextHandle)

/-- The `closed` event handler installed on the created window: resets the
`mainWindow` reference to undefined. -/
def onClosed (s : WinState) : WinState :=
  { s with mainWindow := none }

/-- The `getMainWindow` accessor: the main window, or none when there is
none at the moment. -/
def getMainWindow (s : WinState) : Option Nat :=
  s.mainWindow

end MainWindow

namespace Flockwave

theorem hubInv_init : HubInv Hub.init := by
  constructor <;> simp [Hub.init]

/-- On a hub satisfying the invariant, the defensive duplicate check of the
Correlation Table never fires for the freshly generated id: the insert
performed by `request` always succeeds. -/
theorem tableInsert_fresh (h : Hub) (inv : HubInv h) (e : PendingRequest)
    (he : e.id = h.nextId) : tableInsert h.table e = some (h.table ++ [e]) := by
  unfold tableInsert
  rw [if_neg]
  simp only [List.any_eq_true, decide_eq_true_eq, not_exists, not_and]
  intro p hp hpe
  have := inv.idsLt p hp
  omega

theorem hubInv_request (h : Hub) (inv : HubInv h) (t : String) (b : Body)
    (tmo now : Nat) : HubInv (h.request t b tmo now).1 := by
  unfold Hub.request
  split
  · exact inv
  · split
    · exact inv
    · rename_i a ha
      have hins := tableInsert_fresh h inv
        { id := h.nextId, type := t, createdAt := now, deadline := now + tmo } rfl
      simp only [hins]
      constructor
      · dsimp only
        simp only [List.map_append, List.map_cons, List.map_nil]
        rw [List.nodup_append]
        refine ⟨inv.nodupTable, List.nodup_singleton _, ?_⟩
        intro i hi
        simp only [List.mem_map] at hi
        obtain ⟨p, hp, rfl⟩ := hi
        have := inv.idsLt p hp
        simp only [List.mem_singleton]
        omega
      · dsimp only
        intro p hp
        simp only [List.mem_append, List.mem_singleton] at hp
        rcases hp with hp | hp
        · have := inv.idsLt p hp; omega
        · subst hp; simp
      · dsimp only
        intro r hr
        have := inv.resultsLt r hr; omega
      · exact inv.nodupResults
      · dsimp only
        intro r hr p hp
        simp only [List.mem_append, List.mem_singleton] at hp
        rcases hp with hp | hp
        · exact inv.disjoint r hr p hp
        · subst hp
          have := inv.resultsLt r hr
          dsimp only
          omega
      · dsimp only
        intro hc
        rename_i hcl _
        exact absurd hc hcl
      · dsimp only
        intro hn
        rw [ha] at hn
        exact absurd hn (by simp)

theorem hubInv_dispatch (h : Hub) (inv : HubInv h) (frame : Message) :
    HubInv (h.dispatchInbound frame) := by
  unfold Hub.dispatchInbound
  split
  · rename_i i hi
    split
    · rename_i hmem
      simp only [List.any_eq_true, decide_eq_true_eq] at hmem
      obtain ⟨q, hq, hqi⟩ := hmem
      constructor
      · exact List.Nodup.sublist
          (List.Sublist.map _ (List.filter_sublist h.table)) inv.nodupTable
      · intro p hp
        exact inv.idsLt p (List.mem_of_mem_filter hp)
      · intro r hr
        simp only [List.mem_append, List.mem_singleton] at hr
        rcases hr with hr | hr
        · exact inv.resultsLt r hr
        · subst hr
          simpa [hqi] using inv.idsLt q hq
      · simp only [List.map_append, List.map_cons, List.map_nil]
        rw [List.nodup_append]
        refine ⟨inv.nodupResults, List.nodup_singleton _, ?_⟩
        intro x hx
        simp only [List.mem_map] at hx
        obtain ⟨r, hr, rfl⟩ := hx
        simp only [List.mem_singleton]
        intro hri
        exact inv.disjoint r hr q hq (hri.trans hqi.symm)
      · intro r hr p hp
        rw [List.mem_filter] at hp
        simp only [List.mem_append, List.mem_singleton] at hr
        rcases hr with hr | hr
        · exact inv.disjoint r hr p hp.1
        · subst hr
          simp only [decide_eq_true_eq] at hp
          exact fun hc => hp.2 hc.symm
      · intro hc
        obtain ⟨ht, hA, hH⟩ := inv.closedDrained hc
        rw [ht] at hq
        exact absurd hq (by simp)
      · intro hn
        have := inv.noAdapterDrained hn
        rw [this] at hq
        exact absurd hq (by simp)
    · exact ⟨inv.nodupTable, inv.idsLt, inv.resultsLt, inv.nodupResults,
        inv.disjoint, inv.closedDrained, inv.noAdapterDrained⟩
  · split
    · exact ⟨inv.nodupTable, inv.idsLt, inv.resultsLt, inv.nodupResults,
        inv.disjoint, inv.closedDrained, inv.noAdapterDrained⟩
    · exact ⟨inv.nodupTable, inv.idsLt, inv.resultsLt, inv.nodupResults,
        inv.disjoint, inv.closedDrained, inv.noAdapterDrained⟩

theorem hubInv_sweep (h : Hub) (inv : HubInv h) (now : Nat) :
    HubInv (h.sweepExpired now) := by
  unfold Hub.sweepExpired
  constructor
  · exact List.Nodup.sublist
      (List.Sublist.map _ (List.filter_sublist h.table)) inv.nodupTable
  · intro p hp
    exact inv.idsLt p (List.mem_of_mem_filter hp)
  · intro r hr
    simp only [List.mem_append] at hr
    rcases hr with hr | hr
    · exact inv.resultsLt r hr
    · simp only [List.mem_map] at hr
      obtain ⟨p, hp, rfl⟩ := hr
      exact inv.idsLt p (List.mem_of_mem_filter hp)
  · dsimp only
    simp only [List.map_append, List.map_map]
    rw [List.nodup_append]
    refine ⟨inv.nodupResults, ?_, ?_⟩
    · have : ((h.table.filter (fun p => decide (p.deadline ≤ now))).map
          (Prod.fst ∘ fun p => (p.id, Outcome.failure HubError.Timeout)))
          = (h.table.filter (fun p => decide (p.deadline ≤ now))).map (fun p => p.id) := by
        simp [Function.comp]
      rw [this]
      exact List.Nodup.sublist
        (List.Sublist.map _ (List.filter_sublist h.table)) inv.nodupTable
    · intro x hx
      simp only [List.mem_map] at hx
      obtain ⟨r, hr, rfl⟩ := hx
      simp only [List.mem_map, Function.comp]
      rintro ⟨p, hp, hpx⟩
      exact inv.disjoint r hr p (List.mem_of_mem_filter hp) hpx.symm
  · intro r hr p hp
    rw [List.mem_filter] at hp
    simp only [List.mem_append, List.mem_map] at hr
    rcases hr with hr | hr
    · exact inv.disjoint r hr p hp.1
    · obtain ⟨q, hq, rfl⟩ := hr
      rw [List.mem_filter] at hq
      dsimp only
      intro hqp
      have := List.inj_on_of_nodup_map inv.nodupTable hq.1 hp.1 hqp
      subst this
      simp only [decide_eq_true_eq, Bool.not_eq_true', decide_eq_false_iff_not] at hq hp
      exact hp.2 hq.2
  · intro hc
    obtain ⟨ht, hA, hH⟩ := inv.closedDrained hc
    simp [ht, hA, hH]
  · intro hn
    have := inv.noAdapterDrained hn
    simp [this]

theorem hubInv_connect (h : Hub) (inv : HubInv h) (a : Nat) :
    HubInv (h.connect a) := by
  unfold Hub.connect
  split
  · exact inv
  · split
    · exact inv
    · constructor
      · simp
      · simp
      · dsimp only
        intro r hr
        simp only [List.mem_append, List.mem_map] at hr
        rcases hr with hr | hr
        · exact inv.resultsLt r hr
        · obtain ⟨p, hp, rfl⟩ := hr
          exact inv.idsLt p hp
      · dsimp only
        simp only [List.map_append, List.map_map]
        rw [List.nodup_append]
        refine ⟨inv.nodupResults, ?_, ?_⟩
        · have : (h.table.map
              (Prod.fst ∘ fun p => (p.id, Outcome.failure HubError.ConnectionReplaced)))
              = h.table.map (fun p => p.id) := by
            simp [Function.comp]
          rw [this]
          exact inv.nodupTable
        · intro x hx
          simp only [List.mem_map] at hx
          obtain ⟨r, hr, rfl⟩ := hx
          simp only [List.mem_map, Function.comp]
          rintro ⟨p, hp, hpx⟩
          exact inv.disjoint r hr p hp hpx.symm
      · simp
      · dsimp only
        intro hc
        rename_i hcl _
        exact absurd hc hcl
      · simp

theorem hubInv_close (h : Hub) (inv : HubInv h) : HubInv h.close := by
  unfold Hub.close
  constructor
  · simp
  · simp
  · dsimp only
    intro r hr
    simp only [List.mem_append, List.mem_map] at hr
    rcases hr with hr | hr
    · exact inv.resultsLt r hr
    · obtain ⟨p, hp, rfl⟩ := hr
      exact inv.idsLt p hp
  · dsimp only
    simp only [List.map_append, List.map_map]
    rw [List.nodup_append]
    refine ⟨inv.nodupResults, ?_, ?_⟩
    · have : (h.table.map
          (Prod.fst ∘ fun p => (p.id, Outcome.failure HubError.Closed)))
          = h.table.map (fun p => p.id) := by
        simp [Function.comp]
      rw [this]
      exact inv.nodupTable
    · intro x hx
      simp only [List.mem_map] at hx
      obtain ⟨r, hr, rfl⟩ := hx
      simp only [List.mem_map, Function.comp]
      rintro ⟨p, hp, hpx⟩
      exact inv.disjoint r hr p hp hpx.symm
  · simp
  · simp
  · simp

theorem hubInv_register (h : Hub) (inv : HubInv h)
    (m : List (String × Handler)) :
    HubInv (h.registerNotificationHandlers m) := by
  unfold Hub.registerNotificationHandlers
  split
  · exact inv
  · constructor
    · exact inv.nodupTable
    · exact inv.idsLt
    · exact inv.resultsLt
    · exact inv.nodupResults
    · exact inv.disjoint
    · dsimp only
      intro hc
      rename_i hcl
      exact absurd hc hcl
    · exact inv.noAdapterDrained

theorem hubInv_notify (h : Hub) (inv : HubInv h) (t : String) (b : Body) :
    HubInv (h.notify t b).1 := by
  unfold Hub.notify
  split
  · exact inv
  · split
    · exact inv
    · exact ⟨inv.nodupTable, inv.idsLt, inv.resultsLt, inv.nodupResults,
        inv.disjoint, inv.closedDrained, inv.noAdapterDrained⟩

theorem hubInv_applyOp (h : Hub) (inv : HubInv h) (op : HubOp) :
    HubInv (h.applyOp op) := by
  cases op with
  | request t b tmo now => exact hubInv_request h inv t b tmo now
  | dispatch frame => exact hubInv_dispatch h inv frame
  | sweep now => exact hubInv_sweep h inv now
  | connect a => exact hubInv_connect h inv a
  | register m => exact hubInv_register h inv m
  | notify t b => exact hubInv_notify h inv t b
  | close => exact hubInv_close h inv

theorem hubInv_run (h : Hub) (inv : HubInv h) (ops : List HubOp) :
    HubInv (h.run ops) := by
  induction ops generalizing h with
  | nil => exact inv
  | cons op rest ih => exact ih (h.applyOp op) (hubInv_applyOp h inv op)

/-- Every reachable hub state satisfies the invariant. -/
theorem hubInv_reachable (h : Hub) (hr : h.Reachable) : HubInv h := by
  obtain ⟨ops, rfl⟩ := hr
  exact hubInv_run Hub.init hubInv_init ops

/-- On an open hub with a bound adapter and a valid state the send path of
`request` is deterministic: unique fresh id, table append, frame out through
the bound adapter. -/
theorem request_success (h : Hub) (inv : HubInv h) (a : Nat) (t : String)
    (b : Body) (tmo now : Nat) (hcl : h.closed = false)
    (ha : h.adapter = some a) :
    h.request t b tmo now =
      ({ h with
         table := h.table ++
           [{ id := h.nextId, type := t, createdAt := now, deadline := now + tmo }]
         nextId := h.nextId + 1
         sentFrames := h.sentFrames ++
           [(a, { type := t, id := some h.nextId, body := b })] },
       Except.ok h.nextId) := by
  unfold Hub.request
  rw [hcl]
  simp only [Bool.false_eq_true, if_false, ha]
  rw [tableInsert_fresh h inv
    { id := h.nextId, type := t, createdAt := now, deadline := now + tmo } rfl]

/-- A response frame whose id matches a pending entry resolves that entry:
it is removed from the table and the success outcome is recorded. -/
theorem dispatch_resolve (h : Hub) (i : Nat) (b : Body) (t : String)
    (hi : i ∈ h.table.map (fun p => p.id)) :
    h.dispatchInbound { type := t, id := some i, body := b } =
      { h with
        table := h.table.filter (fun p => p.id ≠ i)
        results := h.results ++ [(i, Outcome.success b)] } := by
  unfold Hub.dispatchInbound
  dsimp only
  rw [if_pos]
  simp only [List.any_eq_true, decide_eq_true_eq]
  simp only [List.mem_map] at hi
  obtain ⟨p, hp, rfl⟩ := hi
  exact ⟨p, hp, rfl⟩

/-- A response frame whose id has no matching pending entry is dropped and
logged: the table, the results and the rest of the state are untouched. -/
theorem dispatch_drop (h : Hub) (i : Nat) (b : Body) (t : String)
    (hi : i ∉ h.table.map (fun p => p.id)) :
    h.dispatchInbound { type := t, id := some i, body := b } =
      { h with logs := h.logs ++ ["dropped response with no pending id"] } := by
  unfold Hub.dispatchInbound
  dsimp only
  rw [if_neg]
  simp only [List.any_eq_true, decide_eq_true_eq, not_exists, not_and]
  intro p hp hpe
  exact hi (List.mem_map.2 ⟨p, hp, hpe⟩)

theorem requestAll_spec (reqs : List (String × Body × Nat)) (h : Hub)
    (a : Nat) (now : Nat) (inv : HubInv h) (hcl : h.closed = false)
    (ha : h.adapter = some a) :
    (h.requestAll reqs now).table.map (fun p => p.id)
        = h.table.map (fun p => p.id) ++ List.range' h.nextId reqs.length ∧
    (h.requestAll reqs now).nextId = h.nextId + reqs.length ∧
    (h.requestAll reqs now).results = h.results ∧
    (h.requestAll reqs now).closed = false ∧
    (h.requestAll reqs now).adapter = some a := by
  induction reqs generalizing h with
  | nil => simp [Hub.requestAll, hcl, ha]
  | cons r rest ih =>
    have hstep := request_success h inv a r.1 r.2.1 r.2.2 now hcl ha
    have hfold : h.requestAll (r :: rest) now
        = ((h.request r.1 r.2.1 r.2.2 now).1).requestAll rest now := rfl
    rw [hfold, hstep]
    have inv' : HubInv (h.request r.1 r.2.1 r.2.2 now).1 :=
      hubInv_request h inv r.1 r.2.1 r.2.2 now
    rw [hstep] at inv'
    obtain ⟨h1, h2, h3, h4, h5⟩ := ih _ inv' hcl ha
    refine ⟨?_, ?_, h3, h4, h5⟩
    · rw [h1]
      dsimp only
      simp only [List.map_append, List.map_cons, List.map_nil, List.length_cons]
      rw [List.append_assoc]
      try rfl
    · rw [h2]
      dsimp only
      simp only [List.length_cons]
      try omega

theorem deliverResponses_spec (rs : List (Nat × Body)) (h : Hub)
    (hnd : (rs.map Prod.fst).Nodup)
    (hsub : ∀ r ∈ rs, r.1 ∈ h.table.map (fun p => p.id)) :
    (h.deliverResponses rs).results
        = h.results ++ rs.map (fun r => (r.1, Outcome.success r.2)) ∧
    (h.deliverResponses rs).table
        = h.table.filter (fun p => p.id ∉ rs.map Prod.fst) := by
  induction rs generalizing h with
  | nil => simp [Hub.deliverResponses]
  | cons r rest ih =>
    have hfold : h.deliverResponses (r :: rest)
        = (h.dispatchInbound
            { type := "RESP", id := some r.1, body := r.2 }).deliverResponses rest := rfl
    have hres := dispatch_resolve h r.1 r.2 "RESP" (hsub r (List.mem_cons_self r rest))
    rw [hfold, hres]
    simp only [List.map_cons, List.nodup_cons] at hnd
    have hsub' : ∀ x ∈ rest,
        x.1 ∈ (({ h with
          table := h.table.filter (fun p => p.id ≠ r.1)
          results := h.results ++ [(r.1, Outcome.success r.2)] } : Hub)).table.map
            (fun p => p.id) := by
      dsimp only
      intro x hx
      have hx1 := hsub x (List.mem_cons_of_mem r hx)
      simp only [List.mem_map] at hx1 ⊢
      obtain ⟨p, hp, hpx⟩ := hx1
      refine ⟨p, List.mem_filter.2 ⟨hp, ?_⟩, hpx⟩
      simp only [decide_eq_true_eq, hpx]
      intro hc
      exact hnd.1 (hc ▸ List.mem_map_of_mem Prod.fst hx)
    obtain ⟨h1, h2⟩ := ih _ hnd.2 hsub'
    constructor
    · rw [h1]
      dsimp only
      rw [List.append_assoc]
      rfl
    · rw [h2]
      dsimp only
      rw [List.filter_filter]
      apply List.filter_congr
      intro p hp
      by_cases hc1 : p.id = r.1 <;>
        by_cases hc2 : p.id ∈ List.map Prod.fst rest <;>
          simp [hc1, hc2]

/-- C1: for every sequence of `request` calls followed by matching response
frames delivered in any order (any permutation of the issued ids, each frame
carrying its own body), each request's asynchronous result resolves exactly
once — its id appears exactly once in the settled-results log — and it
resolves with the body of the response frame that carries its own
correlation id. -/
theorem request_response_resolves_exactly_once
    (h : Hub) (a now : Nat) (reqs : List (String × Body × Nat))
    (rs : List (Nat × Body)) (inv : HubInv h) (hcl : h.closed = false)
    (ha : h.adapter = some a)
    (hperm : (rs.map Prod.fst).Perm (List.range' h.nextId reqs.length)) :
    ∀ r ∈ rs,
      (((h.requestAll reqs now).deliverResponses rs).results.map Prod.fst).count r.1
          = 1 ∧
      (r.1, Outcome.success r.2)
          ∈ ((h.requestAll reqs now).deliverResponses rs).results := by
  obtain ⟨ht1, hn1, hr1, hc1, ha1⟩ := requestAll_spec reqs h a now inv hcl ha
  have hnd : (rs.map Prod.fst).Nodup :=
    hperm.nodup_iff.2 (List.nodup_range' _ _)
  have hsub : ∀ r ∈ rs,
      r.1 ∈ (h.requestAll reqs now).table.map (fun p => p.id) := by
    intro r hr
    rw [ht1]
    exact List.mem_append_right _ (hperm.mem_iff.1 (List.mem_map_of_mem _ hr))
  obtain ⟨hres, _⟩ := deliverResponses_spec rs (h.requestAll reqs now) hnd hsub
  intro r hr
  have hmemid : r.1 ∈ rs.map Prod.fst := List.mem_map_of_mem _ hr
  have hhigh : h.nextId ≤ r.1 := by
    have := List.mem_range'_1.1 (hperm.mem_iff.1 hmemid)
    omega
  constructor
  · rw [hres, hr1]
    simp only [List.map_append, List.map_map]
    rw [List.count_append]
    have hz : (h.results.map Prod.fst).count r.1 = 0 := by
      rw [List.count_eq_zero]
      intro hc
      simp only [List.mem_map] at hc
      obtain ⟨x, hx, hxe⟩ := hc
      have := inv.resultsLt x hx
      omega
    have ho : ((rs.map (fun x => (x.1, Outcome.success x.2))).map Prod.fst).count r.1
        = 1 := by
      have hmm : (rs.map (fun x => (x.1, Outcome.success x.2))).map Prod.fst
          = rs.map Prod.fst := by
        simp [Function.comp]
      rw [List.map_map] at hmm ⊢
      rw [hmm]
      exact List.count_eq_one_of_mem hnd hmemid
    rw [List.map_map] at ho
    omega
  · rw [hres]
    exact List.mem_append_right _
      (List.mem_map_of_mem (fun x => (x.1, Outcome.success x.2)) hr)

theorem request_response_resolves_exactly_once_witness :
    ((((Hub.init.connect 7).requestAll [("PING", 11, 5), ("STAT", 22, 5)]
        0).deliverResponses [(1, 200), (0, 100)]).results.map Prod.fst).count 0
        = 1 ∧
    (0, Outcome.success 100)
        ∈ (((Hub.init.connect 7).requestAll [("PING", 11, 5), ("STAT", 22, 5)]
            0).deliverResponses [(1, 200), (0, 100)]).results :=
  request_response_resolves_exactly_once (Hub.init.connect 7) 7 0
    [("PING", 11, 5), ("STAT", 22, 5)] [(1, 200), (0, 100)]
    (hubInv_connect Hub.init hubInv_init 7) (by decide) (by decide) (by decide)
    (0, 100) (by decide)

/-- C2: a pending request whose deadline has elapsed is rejected with
`Timeout` by the sweep and its id is removed from the Correlation Table; a
response for that id arriving afterwards is dropped and merely logged (the
table and results are untouched by it, so the sweep's rejection stays the
unique terminal transition for that id), and conversely when the response is
dispatched first the subsequent sweep observes the entry already removed and
records nothing further for that id — whichever of the two acts first wins
and the settled id appears exactly once either way. -/
theorem timeout_sweep_and_late_response
    (h : Hub) (inv : HubInv h) (p : PendingRequest) (now : Nat) (t : String)
    (b : Body) (hp : p ∈ h.table) (hd : p.deadline ≤ now) :
    (p.id, Outcome.failure HubError.Timeout) ∈ (h.sweepExpired now).results ∧
    p.id ∉ (h.sweepExpired now).table.map (fun q => q.id) ∧
    (h.sweepExpired now).dispatchInbound { type := t, id := some p.id, body := b }
      = { h.sweepExpired now with
          logs := (h.sweepExpired now).logs ++ ["dropped response with no pending id"] } ∧
    ((((h.sweepExpired now).dispatchInbound
        { type := t, id := some p.id, body := b }).results.map Prod.fst).count p.id)
      = 1 ∧
    (p.id, Outcome.success b)
      ∈ (h.dispatchInbound { type := t, id := some p.id, body := b }).results ∧
    (((h.dispatchInbound { type := t, id := some p.id, body := b }).sweepExpired
        now).results.map Prod.fst).count p.id = 1 := by
  have hpexp : p ∈ h.table.filter (fun q => decide (q.deadline ≤ now)) :=
    List.mem_filter.2 ⟨hp, by simpa using hd⟩
  have hnotin : p.id ∉ (h.sweepExpired now).table.map (fun q => q.id) := by
    unfold Hub.sweepExpired
    dsimp only
    simp only [List.mem_map]
    rintro ⟨q, hq, hqe⟩
    rw [List.mem_filter] at hq
    have hqp : q = p := List.inj_on_of_nodup_map inv.nodupTable hq.1 hp hqe
    subst hqp
    simp only [decide_eq_true_eq, Bool.not_eq_true', decide_eq_false_iff_not] at hq
    exact hq.2 hd
  have hdrop := dispatch_drop (h.sweepExpired now) p.id b t hnotin
  have hcount0 : (h.results.map Prod.fst).count p.id = 0 := by
    rw [List.count_eq_zero]
    intro hc
    simp only [List.mem_map] at hc
    obtain ⟨x, hx, hxe⟩ := hc
    exact inv.disjoint x hx p hp hxe
  refine ⟨?_, hnotin, hdrop, ?_, ?_, ?_⟩
  · unfold Hub.sweepExpired
    dsimp only
    exact List.mem_append_right _
      (List.mem_map_of_mem (fun q => (q.id, Outcome.failure HubError.Timeout)) hpexp)
  · rw [hdrop]
    show (((h.sweepExpired now).results.map Prod.fst).count p.id) = 1
    unfold Hub.sweepExpired
    dsimp only
    simp only [List.map_append, List.map_map]
    rw [List.count_append, hcount0]
    have hnodupexp :
        ((h.table.filter (fun q => decide (q.deadline ≤ now))).map
          (Prod.fst ∘ fun q => (q.id, Outcome.failure HubError.Timeout))).Nodup := by
      have : ((h.table.filter (fun q => decide (q.deadline ≤ now))).map
          (Prod.fst ∘ fun q => (q.id, Outcome.failure HubError.Timeout)))
          = (h.table.filter (fun q => decide (q.deadline ≤ now))).map
              (fun q => q.id) := by
        simp [Function.comp]
      rw [this]
      exact List.Nodup.sublist
        (List.Sublist.map _ (List.filter_sublist h.table)) inv.nodupTable
    have hmemexp : p.id ∈ (h.table.filter (fun q => decide (q.deadline ≤ now))).map
        (Prod.fst ∘ fun q => (q.id, Outcome.failure HubError.Timeout)) := by
      simp only [Function.comp, List.mem_map]
      exact ⟨p, hpexp, rfl⟩
    rw [List.count_eq_one_of_mem hnodupexp hmemexp]
  · rw [dispatch_resolve h p.id b t (List.mem_map_of_mem (fun q => q.id) hp)]
    exact List.mem_append_right _ (List.mem_singleton.2 rfl)
  · rw [dispatch_resolve h p.id b t (List.mem_map_of_mem (fun q => q.id) hp)]
    unfold Hub.sweepExpired
    dsimp only
    simp only [List.map_append, List.map_map]
    rw [List.count_append, List.count_append, hcount0]
    have h1 : ([(p.id, Outcome.success b)].map Prod.fst).count p.id = 1 := by
      simp
    have h2 : (((h.table.filter (fun q => q.id ≠ p.id)).filter
          (fun q => decide (q.deadline ≤ now))).map
          (Prod.fst ∘ fun q => (q.id, Outcome.failure HubError.Timeout))).count p.id
        = 0 := by
      rw [List.count_eq_zero]
      simp only [Function.comp, List.mem_map]
      rintro ⟨q, hq, hqe⟩
      rw [List.mem_filter] at hq
      have hq1 := hq.1
      rw [List.mem_filter] at hq1
      simp only [decide_eq_true_eq] at hq1
      exact hq1.2 hqe
    rw [h1, h2]
    try omega


theorem timeout_sweep_and_late_response_witness :
    (0, Outcome.failure HubError.Timeout) ∈ (sampleHub.sweepExpired 5).results ∧
    (0 : Nat) ∉ (sampleHub.sweepExpired 5).table.map (fun q => q.id) ∧
    (sampleHub.sweepExpired 5).dispatchInbound
        { type := "RESP", id := some 0, body := 77 }
      = { sampleHub.sweepExpired 5 with
          logs := (sampleHub.sweepExpired 5).logs
            ++ ["dropped response with no pending id"] } ∧
    ((((sampleHub.sweepExpired 5).dispatchInbound
        { type := "RESP", id := some 0, body := 77 }).results.map Prod.fst).count 0)
      = 1 ∧
    (0, Outcome.success 77)
      ∈ (sampleHub.dispatchInbound
          { type := "RESP", id := some 0, body := 77 }).results ∧
    (((sampleHub.dispatchInbound
        { type := "RESP", id := some 0, body := 77 }).sweepExpired
        5).results.map Prod.fst).count 0 = 1 :=
  timeout_sweep_and_late_response sampleHub
    (hubInv_run Hub.init hubInv_init sampleOps)
    { id := 0, type := "PING", createdAt := 0, deadline := 1 } 5 "RESP" 77
    (by decide) (by decide)

/-- C3: calling `connect` with a new adapter while requests are pending
rejects every pending request with `ConnectionReplaced` and empties the
table before the swap, binds the new adapter, and every subsequent request
is sent only through the new adapter; calling `connect` with the very
adapter instance already bound is a no-op — the state is unchanged and no
pending request is rejected. -/
theorem connect_replaces_pending_and_same_adapter_noop
    (h : Hub) (a anew : Nat) (ha : h.adapter = some a) (hne : anew ≠ a)
    (hcl : h.closed = false) :
    (∀ p ∈ h.table,
        (p.id, Outcome.failure HubError.ConnectionReplaced)
          ∈ (h.connect anew).results) ∧
    (h.connect anew).table = [] ∧
    (h.connect anew).adapter = some anew ∧
    (∀ t b tmo now, ((h.connect anew).request t b tmo now).1.sentFrames
        = (h.connect anew).sentFrames
          ++ [(anew, { type := t, id := some (h.connect anew).nextId, body := b })]) ∧
    h.connect a = h := by
  have hconn : h.connect anew = { h with
      adapter := some anew
      table := []
      results := h.results ++
        h.table.map (fun p => (p.id, Outcome.failure HubError.ConnectionReplaced)) } := by
    unfold Hub.connect
    rw [if_neg (by simp [hcl]), if_neg ?_]
    rw [ha]
    simp only [Option.some.injEq]
    exact fun hc => hne hc.symm
  refine ⟨?_, ?_, ?_, ?_, ?_⟩
  · intro p hp
    rw [hconn]
    dsimp only
    exact List.mem_append_right _
      (List.mem_map_of_mem
        (fun p => (p.id, Outcome.failure HubError.ConnectionReplaced)) hp)
  · rw [hconn]
  · rw [hconn]
  · intro t b tmo now
    rw [hconn]
    unfold Hub.request tableInsert
    simp [hcl]
  · unfold Hub.connect
    rw [if_neg (by simp [hcl]), if_pos ha]

theorem connect_replaces_pending_and_same_adapter_noop_witness :
    ((0 : Nat), Outcome.failure HubError.ConnectionReplaced)
        ∈ (sampleHub.connect 4).results ∧
    (sampleHub.connect 4).table = [] ∧
    (sampleHub.connect 4).adapter = some 4 ∧
    ((sampleHub.connect 4).request "MSG" 8 5 9).1.sentFrames
      = (sampleHub.connect 4).sentFrames
        ++ [(4, { type := "MSG", id := some (sampleHub.connect 4).nextId, body := 8 })] ∧
    sampleHub.connect 3 = sampleHub := by
  have hmain := connect_replaces_pending_and_same_adapter_noop sampleHub 3 4
    (by decide) (by decide) (by decide)
  exact ⟨hmain.1 { id := 0, type := "PING", createdAt := 0, deadline := 1 } (by decide),
    hmain.2.1, hmain.2.2.1, hmain.2.2.2.1 "MSG" 8 5 9, hmain.2.2.2.2⟩

/-- C4: an inbound notification whose type has two or more registered
handlers invokes every one of them, in registration order, each with the
notification body — including every handler registered after one that
throws, since per-handler failure only adds a log line and never removes an
invocation — and the dispatch (a total function) touches neither the
Correlation Table nor the results. -/
theorem notification_fanout_in_order
    (h : Hub) (t : String) (b : Body)
    (htwo : 2 ≤ (handlersFor h.handlers t).length) :
    (h.dispatchInbound { type := t, id := none, body := b }).invocations
        = h.invocations ++ (handlersFor h.handlers t).map (fun hd => (hd.hid, b)) ∧
    (h.dispatchInbound { type := t, id := none, body := b }).table = h.table ∧
    (h.dispatchInbound { type := t, id := none, body := b }).results = h.results := by
  unfold Hub.dispatchInbound
  dsimp only
  rw [if_neg]
  · exact ⟨rfl, rfl, rfl⟩
  · intro he
    rw [List.isEmpty_iff] at he
    rw [he] at htwo
    simp at htwo

theorem notification_fanout_in_order_witness :
    ((Hub.init.registerNotificationHandlers
        [("EVT", { hid := 1, fails := true }), ("EVT", { hid := 2, fails := false })]
        ).dispatchInbound { type := "EVT", id := none, body := 5 }).invocations
      = (Hub.init.registerNotificationHandlers
          [("EVT", { hid := 1, fails := true }), ("EVT", { hid := 2, fails := false })]
          ).invocations
        ++ (handlersFor (Hub.init.registerNotificationHandlers
            [("EVT", { hid := 1, fails := true }), ("EVT", { hid := 2, fails := false })]
            ).handlers "EVT").map (fun hd => (hd.hid, 5)) ∧
    ((Hub.init.registerNotificationHandlers
        [("EVT", { hid := 1, fails := true }), ("EVT", { hid := 2, fails := false })]
        ).dispatchInbound { type := "EVT", id := none, body := 5 }).table
      = (Hub.init.registerNotificationHandlers
          [("EVT", { hid := 1, fails := true }), ("EVT", { hid := 2, fails := false })]
          ).table ∧
    ((Hub.init.registerNotificationHandlers
        [("EVT", { hid := 1, fails := true }), ("EVT", { hid := 2, fails := false })]
        ).dispatchInbound { type := "EVT", id := none, body := 5 }).results
      = (Hub.init.registerNotificationHandlers
          [("EVT", { hid := 1, fails := true }), ("EVT", { hid := 2, fails := false })]
          ).results :=
  notification_fanout_in_order
    (Hub.init.registerNotificationHandlers
      [("EVT", { hid := 1, fails := true }), ("EVT", { hid := 2, fails := false })])
    "EVT" 5 (by decide)

/-- C5: an inbound notification whose type tag has no registered handler
invokes no handler at all and never throws — the dispatch merely appends a
low-severity log line, leaving every other component of the state (in
particular the invocation log) untouched. -/
theorem unknown_type_ignored
    (h : Hub) (t : String) (b : Body) (hu : handlersFor h.handlers t = []) :
    h.dispatchInbound { type := t, id := none, body := b }
      = { h with logs := h.logs ++ ["ignored notification of unknown type " ++ t] } ∧
    (h.dispatchInbound { type := t, id := none, body := b }).invocations
      = h.invocations := by
  have key : h.dispatchInbound { type := t, id := none, body := b }
      = { h with logs := h.logs ++ ["ignored notification of unknown type " ++ t] } := by
    unfold Hub.dispatchInbound
    dsimp only
    rw [hu]
    simp
  exact ⟨key, by rw [key]⟩

theorem unknown_type_ignored_witness :
    Hub.init.dispatchInbound { type := "NEW-TYPE", id := none, body := 5 }
      = { Hub.init with
          logs := Hub.init.logs ++ ["ignored notification of unknown type " ++ "NEW-TYPE"] } ∧
    (Hub.init.dispatchInbound { type := "NEW-TYPE", id := none, body := 5 }).invocations
      = Hub.init.invocations :=
  unknown_type_ignored Hub.init "NEW-TYPE" 5 (by decide)


/-- C6: in every reachable hub state the correlation identifiers pending in
the Correlation Table are pairwise distinct, the monotonically increasing
generator is strictly ahead of every pending id (so the next generated id
can never collide with one still present), the table insert defensively
fails exactly when the id is already present, and inserting an entry carrying
the freshly generated id always succeeds — no operation can create two live
entries with the same id. -/
theorem correlation_ids_unique (h : Hub) (hr : h.Reachable) :
    (h.table.map (fun p => p.id)).Nodup ∧
    (∀ p ∈ h.table, p.id < h.nextId) ∧
    (∀ e : PendingRequest,
        tableInsert h.table e = none ↔ e.id ∈ h.table.map (fun p => p.id)) ∧
    (∀ e : PendingRequest, e.id = h.nextId →
        tableInsert h.table e = some (h.table ++ [e])) := by
  have inv := hubInv_reachable h hr
  refine ⟨inv.nodupTable, inv.idsLt, ?_, fun e he => tableInsert_fresh h inv e he⟩
  intro e
  unfold tableInsert
  constructor
  · intro hnone
    by_cases hc : h.table.any (fun p => p.id = e.id)
    · simp only [List.any_eq_true, decide_eq_true_eq] at hc
      obtain ⟨p, hp, hpe⟩ := hc
      exact hpe ▸ List.mem_map_of_mem (fun p => p.id) hp
    · rw [if_neg hc] at hnone
      exact absurd hnone (by simp)
  · intro hmem
    rw [if_pos]
    simp only [List.any_eq_true, decide_eq_true_eq]
    simp only [List.mem_map] at hmem
    obtain ⟨p, hp, hpe⟩ := hmem
    exact ⟨p, hp, hpe⟩

theorem correlation_ids_unique_witness :
    (sampleHub.table.map (fun p => p.id)).Nodup ∧
    (∀ p ∈ sampleHub.table, p.id < sampleHub.nextId) ∧
    (∀ e : PendingRequest,
        tableInsert sampleHub.table e = none
          ↔ e.id ∈ sampleHub.table.map (fun p => p.id)) ∧
    (∀ e : PendingRequest, e.id = sampleHub.nextId →
        tableInsert sampleHub.table e = some (sampleHub.table ++ [e])) :=
  correlation_ids_unique sampleHub ⟨sampleOps, rfl⟩

/-- C7: `close()` rejects every pending request with `Closed`, detaches the
adapter and clears the handler registrations; it is terminal — afterwards
`request` and `notify` fail with `Closed` without touching the state,
`connect` and handler registration are no-ops, and inbound dispatch can
neither invoke a handler nor settle a result: the hub is unusable. -/
theorem close_is_terminal (h : Hub) :
    h.close.results
      = h.results ++ h.table.map (fun p => (p.id, Outcome.failure HubError.Closed)) ∧
    h.close.adapter = none ∧
    h.close.handlers = [] ∧
    h.close.table = [] ∧
    h.close.closed = true ∧
    (∀ t b tmo now, h.close.request t b tmo now
        = (h.close, Except.error HubError.Closed)) ∧
    (∀ t b, h.close.notify t b = (h.close, Except.error HubError.Closed)) ∧
    (∀ a, h.close.connect a = h.close) ∧
    (∀ m, h.close.registerNotificationHandlers m = h.close) ∧
    (∀ frame, (h.close.dispatchInbound frame).invocations = h.close.invocations ∧
        (h.close.dispatchInbound frame).results = h.close.results ∧
        (h.close.dispatchInbound frame).table = []) := by
  refine ⟨rfl, rfl, rfl, rfl, rfl, ?_, ?_, ?_, ?_, ?_⟩
  · intro t b tmo now
    unfold Hub.request
    rfl
  · intro t b
    unfold Hub.notify
    rfl
  · intro a
    unfold Hub.connect
    rfl
  · intro m
    unfold Hub.registerNotificationHandlers
    rfl
  · intro frame
    unfold Hub.dispatchInbound
    rcases frame with ⟨ft, fid, fb⟩
    cases fid with
    | some i => exact ⟨rfl, rfl, rfl⟩
    | none =>
      show ((if (handlersFor h.close.handlers ft).isEmpty then _ else _ : Hub).invocations = _) ∧ _
      have hemp : handlersFor h.close.handlers ft = [] := rfl
      rw [hemp]
      exact ⟨rfl, rfl, rfl⟩

/-- C8: after registering a handler for the notification type CONN-INF
whose handler id is fresh, delivering one inbound CONN-INF notification with
body B invokes that handler exactly once with body B — the invocation log
filtered to that handler grows by exactly the entry carrying B — and the
Correlation Table and the settled results are unchanged by the dispatch. -/
theorem conn_inf_handler_invoked_once
    (h : Hub) (hd : Handler) (B : Body) (hcl : h.closed = false)
    (hfresh : ∀ q ∈ h.handlers, q.2.hid ≠ hd.hid) :
    ((h.registerNotificationHandlers [("CONN-INF", hd)]).dispatchInbound
        { type := "CONN-INF", id := none, body := B }).invocations.filter
        (fun iv => iv.1 = hd.hid)
      = h.invocations.filter (fun iv => iv.1 = hd.hid) ++ [(hd.hid, B)] ∧
    ((h.registerNotificationHandlers [("CONN-INF", hd)]).dispatchInbound
        { type := "CONN-INF", id := none, body := B }).table = h.table ∧
    ((h.registerNotificationHandlers [("CONN-INF", hd)]).dispatchInbound
        { type := "CONN-INF", id := none, body := B }).results = h.results := by
  have hreg : h.registerNotificationHandlers [("CONN-INF", hd)]
      = { h with handlers := h.handlers ++ [("CONN-INF", hd)] } := by
    unfold Hub.registerNotificationHandlers
    rw [if_neg (by simp [hcl])]
  have hfor : handlersFor (h.handlers ++ [("CONN-INF", hd)]) "CONN-INF"
      = handlersFor h.handlers "CONN-INF" ++ [hd] := by
    unfold handlersFor
    rw [List.filter_append, List.map_append]
    rfl
  rw [hreg]
  unfold Hub.dispatchInbound
  dsimp only
  rw [hfor, if_neg (by simp)]
  refine ⟨?_, rfl, rfl⟩
  dsimp only
  rw [List.map_append, List.filter_append, List.filter_append]
  have hold : List.filter (fun iv => iv.1 = hd.hid)
      ((handlersFor h.handlers "CONN-INF").map (fun q => (q.hid, B))) = [] := by
    rw [List.filter_eq_nil_iff]
    intro iv hiv
    simp only [List.mem_map] at hiv
    obtain ⟨q, hq, rfl⟩ := hiv
    unfold handlersFor at hq
    simp only [List.mem_map, List.mem_filter] at hq
    obtain ⟨pr, ⟨hpr, hprt⟩, hprq⟩ := hq
    simp only [decide_eq_true_eq]
    intro hc
    exact hfresh pr hpr (by rw [hprq]; exact hc)
  rw [hold]
  simp

theorem conn_inf_handler_invoked_once_witness :
    ((sampleHub.registerNotificationHandlers
        [("CONN-INF", { hid := 9, fails := false })]).dispatchInbound
        { type := "CONN-INF", id := none, body := 42 }).invocations.filter
        (fun iv => iv.1 = 9)
      = sampleHub.invocations.filter (fun iv => iv.1 = 9) ++ [(9, 42)] ∧
    ((sampleHub.registerNotificationHandlers
        [("CONN-INF", { hid := 9, fails := false })]).dispatchInbound
        { type := "CONN-INF", id := none, body := 42 }).table = sampleHub.table ∧
    ((sampleHub.registerNotificationHandlers
        [("CONN-INF", { hid := 9, fails := false })]).dispatchInbound
        { type := "CONN-INF", id := none, body := 42 }).results = sampleHub.results :=
  conn_inf_handler_invoked_once sampleHub { hid := 9, fails := false } 42
    (by decide) (by decide)

end Flockwave
namespace ServerSettings

/-- C9: the server settings form accepts a submission exactly when the host
name is non-empty and the port is present and is an integer between 1 and
65535 inclusive, and every accepted submission dispatches
`closeServerSettingsDialog` with the data, the port cast into a number
first. -/
theorem server_settings_submit_iff (d : FormData) (act : Action) :
    submitServerSettings d = some act ↔
      (d.hostName ≠ "" ∧ ∃ n : Nat, parseDecimal d.port = some n ∧
        1 ≤ n ∧ n ≤ 65535 ∧
        act = Action.closeServerSettingsDialog
          (some { hostName := d.hostName, port := n })) := by
  constructor
  · intro hsub
    unfold submitServerSettings at hsub
    by_cases hval : validateServerSettings d = true
    case neg =>
      rw [if_neg hval] at hsub
      exact absurd hsub (by simp)
    rw [if_pos hval] at hsub
    have hact : act = onSubmit d := by
      injection hsub with hs
      exact hs.symm
    unfold validateServerSettings required integer between at hval
    simp only [Bool.and_eq_true, decide_eq_true_eq] at hval
    obtain ⟨hhost, ⟨hport, hint⟩, hbet⟩ := hval
    rw [Option.isSome_iff_exists] at hint
    obtain ⟨n, hn⟩ := hint
    rw [hn] at hbet
    simp only [Bool.and_eq_true, decide_eq_true_eq] at hbet
    refine ⟨hhost, n, hn, hbet.1, hbet.2, ?_⟩
    rw [hact]
    unfold onSubmit
    rw [hn]
    rfl
  · rintro ⟨hhost, n, hn, h1, h2, hact⟩
    have hportne : d.port ≠ "" := by
      intro hc
      unfold parseDecimal at hn
      rw [hc] at hn
      simp at hn
    unfold submitServerSettings
    rw [if_pos]
    · unfold onSubmit
      rw [hn, hact]
      rfl
    · unfold validateServerSettings required integer between
      rw [hn]
      simp [hhost, hportne, h1, h2]

end ServerSettings

namespace MainWindow

/-- C10: `createMainWindow` is idempotent while a main window exists: called
when `mainWindow` is already defined it returns the existing window instance
and leaves the whole state untouched — in particular no `BrowserWindow` is
constructed, the construction count does not change — `getMainWindow`
returns that same instance, and after the window's `closed` event fires
`getMainWindow` returns none. -/
theorem createMainWindow_idempotent (s : WinState) (w : Nat)
    (hw : s.mainWindow = some w) :
    createMainWindow s = (s, w) ∧
    (createMainWindow s).1.createdCount = s.createdCount ∧
    getMainWindow s = some w ∧
    getMainWindow (onClosed s) = none := by
  unfold createMainWindow getMainWindow onClosed
  rw [hw]
  exact ⟨rfl, rfl, rfl, rfl⟩

theorem createMainWindow_idempotent_witness :
    createMainWindow (createMainWindow initState).1
        = ((createMainWindow initState).1, 0) ∧
    (createMainWindow (createMainWindow initState).1).1.createdCount
        = (createMainWindow initState).1.createdCount ∧
    getMainWindow (createMainWindow initState).1 = some 0 ∧
    getMainWindow (onClosed (createMainWindow initState).1) = none :=
  createMainWindow_idempotent (createMainWindow initState).1 0 (by decide)

end MainWindow
